import Mathlib

/-!
Verification development for the multi-player audio synchronization engine of
the slimproto player provider (`music_assistant/server/providers/slimproto/__init__.py`).

The embedding below translates the synchronization-relevant parts of that file:
the playpoint tracker, the drift corrector (`_handle_client_sync`), the
start barrier (`_handle_buffer_ready`), the transport helpers
(`_pause_for` / `_skip_over`), the sync-group membership commands
(`cmd_sync` / `cmd_unsync`) and the entry guard of `play_media`.

Numeric conventions: wall-clock times (`time.time()`) and the averaged drift
(`statistics.fmean`) are modelled over `ℚ`.  All drift samples are integers and
the mean divides their sum by the sample count 8 (a power of two), so the
Python float computation is exact for all realistic magnitudes and the `ℚ`
model is faithful.  `int(...)` on a float truncates toward zero, modelled by
`pyInt` below.
-/

namespace SlimSync

/-- Player identifiers (`player_id` strings in the source). -/
abbrev PlayerId := Nat

/-- `aioslimproto.client.PlayerState`. -/
inductive SlimPlayerState where
  | stopped
  | buffering
  | bufferReady
  | paused
  | playing
deriving DecidableEq

/-- `SyncPlayPoint` dataclass: one drift observation
(`timestamp`, `sync_job_id`, `diff`). -/
structure SyncPlayPoint where
  timestamp : ℚ
  sync_job_id : Nat
  diff : ℤ
deriving DecidableEq

/-- `MIN_DEVIATION_ADJUST = 6` (milliseconds). -/
def MIN_DEVIATION_ADJUST : ℚ := 6

/-- `MIN_REQ_PLAYPOINTS = 8` (also the deque capacity `maxlen=MIN_REQ_PLAYPOINTS`). -/
def MIN_REQ_PLAYPOINTS : Nat := 8

/-- `MAX_SKIP_AHEAD_MS = 1500` (milliseconds). -/
def MAX_SKIP_AHEAD_MS : ℚ := 1500

/-- Python `int(x)` on a float/rational: truncation toward zero. -/
def pyInt (q : ℚ) : ℤ :=
  if 0 ≤ q then ⌊q⌋ else ⌈q⌉

/-- Modelled from the spec: Python `round(x)` (round half to even), the
rounding the specification claims for correction amounts.  Used only to
compare the spec's claimed amount with the amount the code issues. -/
def pyRound (q : ℚ) : ℤ :=
  let f := ⌊q⌋
  let frac := q - f
  if frac < 1/2 then f
  else if 1/2 < frac then f + 1
  else if f % 2 = 0 then f else f + 1

/-- `statistics.fmean`: arithmetic mean.  (Exact over `ℚ`; see header note.) -/
def listFmean (xs : List ℚ) : ℚ :=
  xs.sum / xs.length

/-- `collections.deque(maxlen=cap)`: appending drops the oldest entries so at
most `cap` remain. -/
def dequeAppend (cap : Nat) (xs : List α) (x : α) : List α :=
  let ys := xs ++ [x]
  ys.drop (ys.length - cap)

/-- One handle of `aioslimproto.client.SlimClient` as the sync engine reads
it, together with the `sync_adjust` config value the provider looks up for
that player (`CONF_SYNC_ADJUST`). -/
structure SlimHandle where
  player_id : PlayerId
  state : SlimPlayerState
  elapsed_milliseconds : ℤ
  sync_adjust : ℤ
deriving DecidableEq

/-- `_get_corrected_elapsed_milliseconds`: subtract the player's
`sync_adjust` configuration value (the `if sync_delay != 0` split from the
source is preserved). -/
def correctedElapsedMs (h : SlimHandle) : ℤ :=
  if h.sync_adjust ≠ 0 then h.elapsed_milliseconds - h.sync_adjust
  else h.elapsed_milliseconds

/-- The corrective transport commands the drift corrector schedules
(`self._pause_for(...)` / `self._skip_over(...)` create_task calls), carrying
the raw (rational) millisecond amount `delta`. -/
inductive SyncCommand where
  | pauseFor (target : PlayerId) (millis : ℚ)
  | skipAhead (target : PlayerId) (millis : ℚ)
deriving DecidableEq

/-- The wire codes of `send_strm`: `b"u"` (unpause/start), `b"p"` (pause for),
`b"a"` (skip ahead). -/
inductive StrmCode where
  | u
  | p
  | a
deriving DecidableEq

/-- One `send_strm` packet: the slimproto client it is sent on, the code, and
the `replay_gain` field (an integer). -/
structure StrmPacket where
  target : PlayerId
  code : StrmCode
  replay_gain : ℤ
deriving DecidableEq

/-- `_pause_for(client_id, millis)`: `send_strm(b"p", replay_gain=int(millis))`
on the given client. -/
def pause_for (client_id : PlayerId) (millis : ℚ) : StrmPacket :=
  ⟨client_id, StrmCode.p, pyInt millis⟩

/-- `_skip_over(client_id, millis)`: `send_strm(b"a", replay_gain=int(millis))`
on the given client. -/
def skip_over (client_id : PlayerId) (millis : ℚ) : StrmPacket :=
  ⟨client_id, StrmCode.a, pyInt millis⟩

/-- Lower a scheduled corrective command to the `send_strm` packet it emits. -/
def runSyncCommand : SyncCommand → StrmPacket
  | SyncCommand.pauseFor t ms => pause_for t ms
  | SyncCommand.skipAhead t ms => skip_over t ms

/-- Result of one `_handle_client_sync` invocation for a child: the child's
playpoint deque afterwards, the child's `_do_not_resync_before` entry
afterwards, and the corrective commands scheduled. -/
structure SyncOutput where
  playpoints : List SyncPlayPoint
  backoff : Option ℚ
  commands : List SyncCommand
deriving DecidableEq

/-- Lines 716-730 of `_handle_client_sync`: look at the last playpoint,
invalidate the whole history when it is older than 10 seconds or belongs to a
different stream job, then append the fresh sample (deque capacity 8).
Both staleness checks inspect the originally captured `last_playpoint`. -/
def recordPlaypoint (pts : List SyncPlayPoint) (now : ℚ) (stream_job_id : Nat)
    (diff : ℤ) : List SyncPlayPoint :=
  let last? := pts.getLast?
  let pts1 :=
    match last? with
    | some lp => if now - lp.timestamp > 10 then [] else pts
    | none => pts
  let pts2 :=
    match last? with
    | some lp => if lp.sync_job_id ≠ stream_job_id then [] else pts1
    | none => pts1
  dequeAppend MIN_REQ_PLAYPOINTS pts2 ⟨now, stream_job_id, diff⟩

/-- Lines 732-763 of `_handle_client_sync`: once at least
`MIN_REQ_PLAYPOINTS` samples are collected, take the average drift and decide:
within tolerance (`delta < MIN_DEVIATION_ADJUST`) do nothing (note: the deque
is *not* cleared on this path); runaway lag (`avg > MAX_SKIP_AHEAD_MS`) pauses
the master; positive drift skips the child ahead; negative drift pauses the
child, with the proportional backoff `delta/1000 + 2`. -/
def syncDecision (childId masterId : PlayerId) (now : ℚ)
    (pts : List SyncPlayPoint) (backoff : Option ℚ) : SyncOutput :=
  if pts.length < MIN_REQ_PLAYPOINTS then ⟨pts, backoff, []⟩
  else
    let avg_diff := listFmean (pts.map (fun x => (x.diff : ℚ)))
    let delta := |avg_diff|
    if delta < MIN_DEVIATION_ADJUST then ⟨pts, backoff, []⟩
    else if avg_diff > MAX_SKIP_AHEAD_MS then
      ⟨[], some (now + 2), [SyncCommand.pauseFor masterId delta]⟩
    else if avg_diff > 0 then
      ⟨[], some (now + 2), [SyncCommand.skipAhead childId delta]⟩
    else
      ⟨[], some (now + delta / 1000 + 2), [SyncCommand.pauseFor childId delta]⟩

/-- Everything `_handle_client_sync` reads for one heartbeat of one child. -/
structure SyncInput where
  child : SlimHandle
  /-- `player.synced_to` of the child's MA player record. -/
  syncedTo : Option PlayerId
  /-- `self.slimproto.get_player(sync_master_id)`. -/
  master : Option SlimHandle
  /-- `time.time()`. -/
  now : ℚ
  /-- `self._do_not_resync_before.get(player_id)`. -/
  backoff : Option ℚ
  /-- `self._sync_playpoints[player_id]` (deque, capacity 8). -/
  playpoints : List SyncPlayPoint
  /-- `self.mass.streams.multi_client_jobs.get(queue_id)` reduced to its
  `job_id` (the engine only reads that field). -/
  streamJobId : Option Nat
deriving DecidableEq

/-- The guarded tail of `_handle_client_sync` after the backoff check: bail
out when no stream job exists, otherwise record the corrected-elapsed diff and
run the decision stage. -/
def syncProceed (inp : SyncInput) (sync_master : SlimHandle) : SyncOutput :=
  match inp.streamJobId with
  | none => ⟨inp.playpoints, inp.backoff, []⟩
  | some jid =>
    let diff : ℤ := correctedElapsedMs sync_master - correctedElapsedMs inp.child
    let pts := recordPlaypoint inp.playpoints inp.now jid diff
    syncDecision inp.child.player_id sync_master.player_id inp.now pts inp.backoff

/-- `_handle_client_sync` in full: guards (child is synced, master handle
present, both sides `PLAYING`), the `_do_not_resync_before` debounce (a stored
deadline is truthy and `time.time()` is still before it), then record and
decide. -/
def handleClientSync (inp : SyncInput) : SyncOutput :=
  match inp.syncedTo with
  | none => ⟨inp.playpoints, inp.backoff, []⟩
  | some _ =>
    match inp.master with
    | none => ⟨inp.playpoints, inp.backoff, []⟩
    | some sync_master =>
      if sync_master.state ≠ SlimPlayerState.playing then
        ⟨inp.playpoints, inp.backoff, []⟩
      else if inp.child.state ≠ SlimPlayerState.playing then
        ⟨inp.playpoints, inp.backoff, []⟩
      else
        match inp.backoff with
        | some backoff_time =>
          if backoff_time ≠ 0 ∧ inp.now < backoff_time then
            ⟨inp.playpoints, inp.backoff, []⟩
          else syncProceed inp sync_master
        | none => syncProceed inp sync_master

/-! ## Start barrier (`_handle_buffer_ready`, lines 765-798) -/

/-- One iteration of the readiness poll inspects the states of all sync
clients of the group.  `clientStates i` gives their states at the `i`-th poll
(the states may change between the 100 ms sleeps). -/
def allChildsReady (states : List SlimPlayerState) : Bool :=
  let childs_total := states.length
  let childs_ready := states.countP (fun st => st = SlimPlayerState.bufferReady)
  childs_total == childs_ready

/-- Outcome of running the barrier's polling loop with a given amount of
fuel (number of loop iterations we are willing to unfold). -/
inductive BarrierLoopResult where
  | dispatched (pollsDone : Nat)
  | polling (count : Nat)
deriving DecidableEq

/-- The polling loop of `_handle_buffer_ready` (lines 778-788):
`count = 0; while count < 40:` recount readiness, `break` when all sync
clients report `BUFFER_READY`, otherwise `await asyncio.sleep(0.1)` and loop.
Faithful to the source, the loop body never increments `count`.
`.dispatched` is reached exactly when control falls out of the `while` and
the coordinated start is sent. -/
def startBarrierLoop (clientStates : Nat → List SlimPlayerState) :
    Nat → Nat → Nat → BarrierLoopResult
  | count, _, 0 => BarrierLoopResult.polling count
  | count, iter, fuel + 1 =>
    if count < 40 then
      if allChildsReady (clientStates iter) then BarrierLoopResult.dispatched iter
      else
        -- `await asyncio.sleep(0.1)`; `count` is NOT incremented in the source
        startBarrierLoop clientStates count (iter + 1) fuel
    else BarrierLoopResult.dispatched iter

/-- What the start dispatch reads from each member returned by
`_get_sync_clients`: its id, its `jiffies` clock and its `CONF_SYNC_ADJUST`
config value. -/
structure StartClient where
  player_id : PlayerId
  jiffies : ℤ
  sync_adjust : ℤ
deriving DecidableEq

/-- Lines 790-798 of `_handle_buffer_ready`: for every member `_client`,
compute `timestamp = _client.jiffies + 20 - sync_delay`, set the member's
`_do_not_resync_before` 1 s ahead, and create the task
`slimplayer.send_strm(b"u", replay_gain=int(timestamp))`.  Faithful to the
source, every packet is sent on `slimplayer` — the player whose buffer-ready
event fired — not on `_client`. -/
def dispatchStart (slimplayerId : PlayerId) (clients : List StartClient)
    (now : ℚ) : List StrmPacket × List (PlayerId × ℚ) :=
  ( clients.map (fun c => ⟨slimplayerId, StrmCode.u, c.jiffies + 20 - c.sync_adjust⟩),
    clients.map (fun c => (c.player_id, now + 1)) )

/-! ## Sync-group membership (`cmd_sync` / `cmd_unsync`, lines 538-585) -/

/-- The membership-relevant slice of one MA `Player` record. -/
structure MAPlayer where
  synced_to : Option PlayerId
  group_childs : Finset PlayerId
deriving DecidableEq

/-- The player registry, as membership state: every id maps to a record. -/
def MAState := PlayerId → MAPlayer

/-- Point update of the registry. -/
def setPlayer (s : MAState) (pid : PlayerId) (p : MAPlayer) : MAState :=
  fun q => if q = pid then p else s q

/-- The registry in which no player is synced and no groups exist. -/
def emptyMAState : MAState := fun _ => ⟨none, ∅⟩

/-- `cmd_sync(player_id, target_player)` (lines 538-551), membership part:
raise when the target is already synced itself, or when the child is synced to
a different player; otherwise add the target and the child to the target's
`group_childs` and point the child's `synced_to` at the target.  (The
queue-restart debounce further down in the source touches no membership
state.) -/
def cmd_sync (s : MAState) (player_id target_player : PlayerId) :
    Except String MAState :=
  let child_player := s player_id
  let parent_player := s target_player
  if parent_player.synced_to.isSome then
    Except.error "Player is already synced"
  else if child_player.synced_to.isSome ∧ child_player.synced_to ≠ some target_player then
    Except.error "Player is already synced to another player"
  else
    -- always make sure that the parent player is part of the sync group
    let s1 := setPlayer s target_player
      { parent_player with
        group_childs := insert player_id (insert target_player parent_player.group_childs) }
    let s2 := setPlayer s1 player_id
      { s1 player_id with synced_to := some target_player }
    Except.ok s2

/-- `cmd_unsync(player_id)` (lines 572-585), membership part: look up the
master via `synced_to` (the source crashes on an unsynced player — `get(None)`
— modelled as an error), clear the child's `synced_to`, remove the child from
the master's `group_childs`, and when only the master itself remains dissolve
the group.  (`cmd_stop` on the child is transport only.) -/
def cmd_unsync (s : MAState) (player_id : PlayerId) : Except String MAState :=
  let child_player := s player_id
  match child_player.synced_to with
  | none => Except.error "player is not synced"
  | some master_id =>
    let s1 := setPlayer s player_id { child_player with synced_to := none }
    let parent_player := s1 master_id
    let g1 := parent_player.group_childs.erase player_id
    let g2 := if g1 = {master_id} then g1.erase master_id else g1
    Except.ok (setPlayer s1 master_id { parent_player with group_childs := g2 })

/-- One externally issued membership command. -/
inductive SyncOp where
  | sync (child master : PlayerId)
  | unsync (child : PlayerId)

/-- Run a sequence of membership commands; `none` as soon as one raises.
A surviving run is exactly one whose calls all satisfy the preconditions the
source checks. -/
def execOps : List SyncOp → MAState → Option MAState
  | [], s => some s
  | SyncOp.sync c m :: rest, s =>
    match cmd_sync s c m with
    | Except.ok s1 => execOps rest s1
    | Except.error _ => none
  | SyncOp.unsync c :: rest, s =>
    match cmd_unsync s c with
    | Except.ok s1 => execOps rest s1
    | Except.error _ => none

/-- Run a sequence of membership commands, additionally demanding for every
`sync` call that the child argument is not itself a master (its
`group_childs` is empty) and differs from the target. -/
def execValidOps : List SyncOp → MAState → Option MAState
  | [], s => some s
  | SyncOp.sync c m :: rest, s =>
    if (s c).group_childs = ∅ ∧ c ≠ m then
      match cmd_sync s c m with
      | Except.ok s1 => execValidOps rest s1
      | Except.error _ => none
    else none
  | SyncOp.unsync c :: rest, s =>
    match cmd_unsync s c with
    | Except.ok s1 => execValidOps rest s1
    | Except.error _ => none

/-- The membership invariant claimed by the specification: no player is both
a master (non-empty `group_childs`) and a child (`synced_to` set) — hence
every player is in exactly one of UNSYNCED / MASTER / CHILD — and every
child appears in its master's `group_childs`. -/
def membershipInvariant (s : MAState) : Prop :=
  (∀ p, ¬ ((s p).group_childs.Nonempty ∧ (s p).synced_to.isSome)) ∧
  (∀ c m, (s c).synced_to = some m → c ∈ (s m).group_childs)

/-- Strengthened inductive invariant for the membership machine. -/
structure InvS (s : MAState) : Prop where
  masterNotChild : ∀ p, (s p).group_childs ≠ ∅ → (s p).synced_to = none
  childInMaster : ∀ c m, (s c).synced_to = some m → c ∈ (s m).group_childs
  selfMember : ∀ p, (s p).group_childs ≠ ∅ → p ∈ (s p).group_childs

/-! ## `play_media` entry guard (lines 312-385) -/

/-- The externally observable effects of `play_media` relevant here. -/
inductive MediaEffect where
  | createMultiClientJob
  | resolveStreamUrl
  | playUrl (target : PlayerId)
deriving DecidableEq

/-- Result of `play_media`: whether a pending debounced resync timer was
cancelled, and either the raised error or the effect sequence. -/
structure PlayMediaResult where
  resyncCancelled : Bool
  outcome : Except String (List MediaEffect)

/-- `play_media` (lines 312-385) up to its branch structure: cancel any
pending resync timer, raise for a synced child before any stream job is
created or any player contacted, start a multi-client stream job for a group
master, plain single-player playback otherwise (no-op when the slimproto
handle is gone).  No branch touches any player's `synced_to`/`group_childs`. -/
def play_media (resyncPending : Bool) (player_id : PlayerId) (player : MAPlayer)
    (syncClients : List PlayerId) (playerConnected : Bool) : PlayMediaResult :=
  -- fix race condition where resync and play media are called at
  -- more or less the same time: the pending timer is always cancelled
  let cancelled := resyncPending
  if player.synced_to.isSome then
    ⟨cancelled, Except.error "A synced player cannot receive play commands directly"⟩
  else if player.group_childs ≠ ∅ then
    ⟨cancelled,
      Except.ok (MediaEffect.createMultiClientJob :: syncClients.map MediaEffect.playUrl)⟩
  else if playerConnected then
    ⟨cancelled,
      Except.ok [MediaEffect.resolveStreamUrl, MediaEffect.playUrl player_id]⟩
  else ⟨cancelled, Except.ok []⟩

/-! ## Compatibility of recorded playpoints -/

/-- Two adjacent samples are compatible when the newer one arrived at most
10 s after the older one and both belong to the same stream job — exactly the
conditions under which `recordPlaypoint` retains history. -/
def ppCompat (a b : SyncPlayPoint) : Prop :=
  b.timestamp - a.timestamp ≤ 10 ∧ a.sync_job_id = b.sync_job_id

/-- Replay a sequence of heartbeat recordings
(`(time.time(), stream_job.job_id, diff)` triples) into an initially empty
tracker. -/
def runRecords (evs : List (ℚ × Nat × ℤ)) : List SyncPlayPoint :=
  evs.foldl (fun pts e => recordPlaypoint pts e.1 e.2.1 e.2.2) []

/-! ## Concrete instances used by counterexamples and witnesses -/

/-- A group whose second sync client never reports `BUFFER_READY` at any
poll: the master is ready, the child stays `BUFFERING` forever. -/
def stuckStates : Nat → List SlimPlayerState :=
  fun _ => [SlimPlayerState.bufferReady, SlimPlayerState.buffering]

/-- A two-member group: the master (id 0) and one child (id 1) with distinct
clocks and a 30 ms sync adjustment on the child. -/
def C2clients : List StartClient := [⟨0, 1000, 0⟩, ⟨1, 2000, 30⟩]

/-- Seven compatible zero-drift samples of stream job 7. -/
def C3pts : List SyncPlayPoint :=
  [⟨100, 7, 0⟩, ⟨101, 7, 0⟩, ⟨102, 7, 0⟩, ⟨103, 7, 0⟩,
   ⟨104, 7, 0⟩, ⟨105, 7, 0⟩, ⟨106, 7, 0⟩]

/-- A heartbeat of child 1 (synced to master 0, both `PLAYING`, zero drift)
arriving with seven compatible samples already collected: the tracker becomes
ready on this heartbeat and the average drift is 0. -/
def C3inp : SyncInput :=
  { child := ⟨1, SlimPlayerState.playing, 60000, 0⟩
    syncedTo := some 0
    master := some ⟨0, SlimPlayerState.playing, 60000, 0⟩
    now := 107
    backoff := none
    playpoints := C3pts
    streamJobId := some 7 }

/-- A ready tracker (8 samples) with average drift 0. -/
def C3readyPts : List SyncPlayPoint :=
  [⟨100, 7, 0⟩, ⟨101, 7, 0⟩, ⟨102, 7, 0⟩, ⟨103, 7, 0⟩,
   ⟨104, 7, 0⟩, ⟨105, 7, 0⟩, ⟨106, 7, 0⟩, ⟨107, 7, 0⟩]

/-- A ready tracker whose average drift is `405/8 = 50.625` ms (in the
correction range, fractional). -/
def C5pts : List SyncPlayPoint :=
  [⟨100, 7, 50⟩, ⟨101, 7, 50⟩, ⟨102, 7, 50⟩, ⟨103, 7, 50⟩,
   ⟨104, 7, 50⟩, ⟨105, 7, 50⟩, ⟨106, 7, 50⟩, ⟨107, 7, 55⟩]

/-- A ready tracker whose average drift is 2000 ms (runaway lag). -/
def C6pts : List SyncPlayPoint :=
  [⟨100, 7, 2000⟩, ⟨101, 7, 2000⟩, ⟨102, 7, 2000⟩, ⟨103, 7, 2000⟩,
   ⟨104, 7, 2000⟩, ⟨105, 7, 2000⟩, ⟨106, 7, 2000⟩, ⟨107, 7, 2000⟩]

/-- A heartbeat arriving while the child's `_do_not_resync_before` deadline
(50) is still in the future (`now = 10`). -/
def C7inp : SyncInput :=
  { child := ⟨1, SlimPlayerState.playing, 60000, 0⟩
    syncedTo := some 0
    master := some ⟨0, SlimPlayerState.playing, 61000, 0⟩
    now := 10
    backoff := some 50
    playpoints := C3pts
    streamJobId := some 7 }

/-- The sequence sync(2 → 0); sync(0 → 1): both calls pass the source's
precondition checks, yet afterwards player 0 is a master and a child of 1. -/
def C4ops : List SyncOp := [SyncOp.sync 2 0, SyncOp.sync 0 1]

/-- The registry after running `C4ops` from the empty registry. -/
def C4final : MAState := (execOps C4ops emptyMAState).getD emptyMAState

/-- The registry after the single valid call sync(1 → 0) from the empty
registry. -/
def C4validFinal : MAState :=
  (execValidOps [SyncOp.sync 1 0] emptyMAState).getD emptyMAState

/-- The registry produced by `cmd_sync emptyMAState 1 0`. -/
def C9res : MAState :=
  setPlayer (setPlayer emptyMAState 0 ⟨none, insert 1 (insert 0 (∅ : Finset PlayerId))⟩)
    1 ⟨some 0, (∅ : Finset PlayerId)⟩

/-! ## Helper lemmas -/

theorem setPlayer_same (s : MAState) (pid : PlayerId) (p : MAPlayer) :
    setPlayer s pid p pid = p := by
  simp [setPlayer]

theorem setPlayer_other (s : MAState) (pid q : PlayerId) (p : MAPlayer)
    (h : q ≠ pid) : setPlayer s pid p q = s q := by
  simp [setPlayer, h]

/-- `cmd_sync` preserves the strengthened membership invariant, provided the
child argument is not itself a master and differs from the target. -/
theorem invS_sync (s s1 : MAState) (c m : PlayerId) (hInv : InvS s)
    (hchild : (s c).group_childs = ∅) (hcm : c ≠ m)
    (hok : cmd_sync s c m = Except.ok s1) : InvS s1 := by
  unfold cmd_sync at hok
  by_cases h1 : (s m).synced_to.isSome
  · simp [h1] at hok
  · by_cases h2 : (s c).synced_to.isSome ∧ (s c).synced_to ≠ some m
    · simp [h1, h2] at hok
    · simp [h1, h2] at hok
      have hmnone : (s m).synced_to = none := Option.not_isSome_iff_eq_none.mp h1
      have hrc : s1 c = ⟨some m, (s c).group_childs⟩ := by
        rw [← hok, setPlayer_same, setPlayer_other _ _ _ _ hcm]
      have hrm : s1 m = ⟨(s m).synced_to, insert c (insert m (s m).group_childs)⟩ := by
        rw [← hok, setPlayer_other _ _ _ _ (Ne.symm hcm), setPlayer_same]
      have hrq : ∀ q, q ≠ c → q ≠ m → s1 q = s q := by
        intro q hqc hqm
        rw [← hok, setPlayer_other _ _ _ _ hqc, setPlayer_other _ _ _ _ hqm]
      refine ⟨?_, ?_, ?_⟩
      · -- masterNotChild
        intro p hne
        by_cases hpc : p = c
        · subst hpc
          rw [hrc] at hne
          exact absurd hchild hne
        · by_cases hpm : p = m
          · subst hpm
            rw [hrm]
            exact hmnone
          · rw [hrq p hpc hpm] at hne ⊢
            exact hInv.masterNotChild p hne
      · -- childInMaster
        intro x mx hx
        by_cases hxc : x = c
        · subst hxc
          rw [hrc] at hx
          cases hx
          rw [hrm]
          exact Finset.mem_insert_self _ _
        · by_cases hxm : x = m
          · subst hxm
            rw [hrm] at hx
            simp [hmnone] at hx
          · rw [hrq x hxc hxm] at hx
            have hold := hInv.childInMaster x mx hx
            by_cases hmxm : mx = m
            · subst hmxm
              rw [hrm]
              exact Finset.mem_insert_of_mem (Finset.mem_insert_of_mem hold)
            · by_cases hmxc : mx = c
              · subst hmxc
                rw [hchild] at hold
                exact absurd hold (Finset.not_mem_empty x)
              · rw [hrq mx hmxc hmxm]
                exact hold
      · -- selfMember
        intro p hne
        by_cases hpc : p = c
        · subst hpc
          rw [hrc] at hne
          exact absurd hchild hne
        · by_cases hpm : p = m
          · subst hpm
            rw [hrm]
            exact Finset.mem_insert_of_mem (Finset.mem_insert_self _ _)
          · rw [hrq p hpc hpm] at hne ⊢
            exact hInv.selfMember p hne

/-- `cmd_unsync` preserves the strengthened membership invariant. -/
theorem invS_unsync (s s1 : MAState) (c : PlayerId) (hInv : InvS s)
    (hok : cmd_unsync s c = Except.ok s1) : InvS s1 := by
  unfold cmd_unsync at hok
  dsimp only at hok
  cases hsync : (s c).synced_to with
  | none =>
    rw [hsync] at hok
    cases hok
  | some m0 =>
    rw [hsync] at hok
    dsimp only at hok
    rw [Except.ok.injEq] at hok
    have hgc : (s c).group_childs = ∅ := by
      by_contra hne
      have hnone := hInv.masterNotChild c hne
      rw [hnone] at hsync
      cases hsync
    have hcmem : c ∈ (s m0).group_childs := hInv.childInMaster c m0 hsync
    have hcne : c ≠ m0 := by
      intro h
      subst h
      rw [hgc] at hcmem
      exact Finset.not_mem_empty c hcmem
    have hm0ne : (s m0).group_childs ≠ ∅ := by
      intro hempty
      rw [hempty] at hcmem
      exact Finset.not_mem_empty c hcmem
    have hm0none : (s m0).synced_to = none := hInv.masterNotChild m0 hm0ne
    have hA : setPlayer s c ⟨none, (s c).group_childs⟩ m0 = s m0 :=
      setPlayer_other _ _ _ _ (Ne.symm hcne)
    rw [hA] at hok
    have hrc : s1 c = ⟨none, (s c).group_childs⟩ := by
      rw [← hok, setPlayer_other _ _ _ _ hcne, setPlayer_same]
    have hrm : s1 m0 = ⟨(s m0).synced_to,
        if (s m0).group_childs.erase c = {m0}
        then ((s m0).group_childs.erase c).erase m0
        else (s m0).group_childs.erase c⟩ := by
      rw [← hok, setPlayer_same]
    have hrq : ∀ q, q ≠ c → q ≠ m0 → s1 q = s q := by
      intro q hqc hqm
      rw [← hok, setPlayer_other _ _ _ _ hqm, setPlayer_other _ _ _ _ hqc]
    refine ⟨?_, ?_, ?_⟩
    · -- masterNotChild
      intro p hne
      by_cases hpc : p = c
      · subst hpc
        rw [hrc] at hne
        exact absurd hgc hne
      · by_cases hpm : p = m0
        · subst hpm
          rw [hrm]
          exact hm0none
        · rw [hrq p hpc hpm] at hne ⊢
          exact hInv.masterNotChild p hne
    · -- childInMaster
      intro x mx hx
      by_cases hxc : x = c
      · subst hxc
        rw [hrc] at hx
        cases hx
      · by_cases hxm : x = m0
        · subst hxm
          rw [hrm] at hx
          dsimp only at hx
          rw [hm0none] at hx
          cases hx
        · rw [hrq x hxc hxm] at hx
          have hold := hInv.childInMaster x mx hx
          by_cases hmxm : mx = m0
          · rw [hmxm] at hold ⊢
            rw [hrm]
            dsimp only
            split_ifs with hif
            · exfalso
              have hx1 : x ∈ (s m0).group_childs.erase c :=
                Finset.mem_erase.mpr ⟨hxc, hold⟩
              rw [hif] at hx1
              exact hxm (Finset.mem_singleton.mp hx1)
            · exact Finset.mem_erase.mpr ⟨hxc, hold⟩
          · by_cases hmxc : mx = c
            · rw [hmxc] at hold
              rw [hgc] at hold
              exact absurd hold (Finset.not_mem_empty x)
            · rw [hrq mx hmxc hmxm]
              exact hold
    · -- selfMember
      intro p hne
      by_cases hpc : p = c
      · subst hpc
        rw [hrc] at hne
        exact absurd hgc hne
      · by_cases hpm : p = m0
        · subst hpm
          rw [hrm] at hne ⊢
          dsimp only at hne ⊢
          split_ifs at hne ⊢ with hif
          · exfalso
            apply hne
            rw [hif]
            exact Finset.erase_singleton _
          · exact Finset.mem_erase.mpr ⟨Ne.symm hcne, hInv.selfMember _ hm0ne⟩
        · rw [hrq p hpc hpm] at hne ⊢
          exact hInv.selfMember p hne

/-- The strengthened invariant is preserved along any surviving valid run. -/
theorem invS_execValid :
    ∀ (ops : List SyncOp) (s s1 : MAState),
      InvS s → execValidOps ops s = some s1 → InvS s1 := by
  intro ops
  induction ops with
  | nil =>
    intro s s1 h hx
    cases hx
    exact h
  | cons op rest ih =>
    intro s s1 h hx
    cases op with
    | sync c m =>
      unfold execValidOps at hx
      split_ifs at hx with hcond
      · cases hcs : cmd_sync s c m with
        | ok s2 =>
          rw [hcs] at hx
          exact ih s2 s1 (invS_sync s s2 c m h hcond.1 hcond.2 hcs) hx
        | error e =>
          rw [hcs] at hx
          cases hx
    | unsync c =>
      unfold execValidOps at hx
      cases hcs : cmd_unsync s c with
      | ok s2 =>
        rw [hcs] at hx
        exact ih s2 s1 (invS_unsync s s2 c h hcs) hx
      | error e =>
        rw [hcs] at hx
        cases hx

/-- The empty registry satisfies the strengthened invariant. -/
theorem invS_empty : InvS emptyMAState := by
  refine ⟨?_, ?_, ?_⟩
  · intro p hne
    exact absurd rfl hne
  · intro c m hx
    cases hx
  · intro p hne
    exact absurd rfl hne

/-- The strengthened invariant implies the specification's membership
invariant. -/
theorem invS_membership (s : MAState) (h : InvS s) : membershipInvariant s := by
  constructor
  · rintro p ⟨hne, hsome⟩
    have hnone := h.masterNotChild p (Finset.nonempty_iff_ne_empty.mp hne)
    rw [hnone] at hsome
    cases hsome
  · exact h.childInMaster

/-- `recordPlaypoint` never lets the tracker exceed 8 samples
(deque `maxlen`). -/
theorem recordPlaypoint_length_le (pts : List SyncPlayPoint) (now : ℚ)
    (jobId : Nat) (d : ℤ) :
    (recordPlaypoint pts now jobId d).length ≤ MIN_REQ_PLAYPOINTS := by
  unfold recordPlaypoint dequeAppend
  dsimp only
  rw [List.length_drop]
  have h8 : 0 < MIN_REQ_PLAYPOINTS := by norm_num [MIN_REQ_PLAYPOINTS]
  omega

/-- `recordPlaypoint` keeps the tracker a chain of pairwise-compatible
samples. -/
theorem recordPlaypoint_chain (pts : List SyncPlayPoint) (now : ℚ)
    (jobId : Nat) (d : ℤ) (h : List.Chain' ppCompat pts) :
    List.Chain' ppCompat (recordPlaypoint pts now jobId d) := by
  unfold recordPlaypoint dequeAppend
  dsimp only
  cases hlast : pts.getLast? with
  | none =>
    have hnil : pts = [] := List.getLast?_eq_none_iff.mp hlast
    subst hnil
    apply List.Chain'.drop
    simp
  | some lp =>
    dsimp only
    by_cases h2 : lp.sync_job_id ≠ jobId
    · rw [if_pos h2]
      apply List.Chain'.drop
      simp
    · rw [if_neg h2]
      by_cases h1 : now - lp.timestamp > 10
      · rw [if_pos h1]
        apply List.Chain'.drop
        simp
      · rw [if_neg h1]
        apply List.Chain'.drop
        rw [List.chain'_append]
        refine ⟨h, List.chain'_singleton _, ?_⟩
        intro x hx y hy
        rw [hlast] at hx
        cases hx
        cases hy
        push_neg at h2
        exact ⟨not_lt.mp h1, h2⟩

/-! ## Claim theorems -/

/-- C1: the specification claims the readiness poll of `_handle_buffer_ready`
performs at most 40 iterations and then dispatches the synchronized start even
if some members never report BUFFER_READY.  The source never increments
`count` inside the loop, so on `stuckStates` — a group whose second sync
client never reports BUFFER_READY — the loop is still polling after *every*
number of iterations and the dispatch is never reached, refuting the polling
ceiling: the loop does not terminate on such an input. -/
theorem handleBufferReady_barrier_never_exits :
    ∀ (fuel iter : Nat),
      startBarrierLoop stuckStates 0 iter fuel = BarrierLoopResult.polling 0 := by
  intro fuel
  induction fuel with
  | zero => intro iter; rfl
  | succ n ih =>
    intro iter
    have hready : allChildsReady (stuckStates iter) = false := rfl
    unfold startBarrierLoop
    rw [if_pos (by norm_num : (0 : Nat) < 40)]
    rw [hready]
    simp only [Bool.false_eq_true, if_false]
    exact ih (iter + 1)

/-- C2: the specification claims the coordinated start issues one
unpause/start instruction *to each member*, carrying that member's own
timestamp `jiffies + 20 - sync_adjust`.  Evaluating the dispatch of
`_handle_buffer_ready` on the two-member group `C2clients` (master 0,
child 1): the per-member timestamps are computed correctly (1020 and 1990),
but both `b"u"` packets are sent on `slimplayer` — the master, player 0 — and
member 1 receives no start command at all, because the source calls
`slimplayer.send_strm` instead of `_client.send_strm`. -/
theorem handleBufferReady_start_packets_target_master :
    (dispatchStart 0 C2clients 500).1 =
      [⟨0, StrmCode.u, 1020⟩, ⟨0, StrmCode.u, 1990⟩] ∧
    ((dispatchStart 0 C2clients 500).1.filter (fun pkt => pkt.target = 1)) = [] := by
  constructor <;> rfl

/-- C3 counterexample: a heartbeat of a synced child on which the tracker
becomes ready (8 samples) with average drift 0 (< 6 ms): the handler issues
no command, but the playpoint buffer still holds all 8 samples afterwards —
the tracker is *not* cleared on the tolerance branch, refuting "the buffer is
empty regardless of which branch was taken". -/
theorem clientSync_tolerance_retains_tracker_cx :
    (handleClientSync C3inp).commands = [] ∧
    (handleClientSync C3inp).playpoints.length = 8 := by
  norm_num [handleClientSync, C3inp, syncProceed, recordPlaypoint, C3pts,
    correctedElapsedMs, dequeAppend, syncDecision, MIN_REQ_PLAYPOINTS,
    listFmean, MIN_DEVIATION_ADJUST]

/-- C3 (amended): on a ready tracker the deque is cleared exactly when a
correction is decided (average drift magnitude ≥ 6 ms); when the magnitude is
below 6 ms no corrective command is issued and the buffer is left intact
(a sliding window), not cleared. -/
theorem syncDecision_clears_only_on_correction (childId masterId : PlayerId)
    (now : ℚ) (pts : List SyncPlayPoint) (backoff : Option ℚ)
    (h8 : ¬ pts.length < MIN_REQ_PLAYPOINTS) :
    (|listFmean (pts.map (fun x => (x.diff : ℚ)))| < MIN_DEVIATION_ADJUST →
       syncDecision childId masterId now pts backoff = ⟨pts, backoff, []⟩) ∧
    (MIN_DEVIATION_ADJUST ≤ |listFmean (pts.map (fun x => (x.diff : ℚ)))| →
       (syncDecision childId masterId now pts backoff).playpoints = []) := by
  constructor
  · intro hlt
    unfold syncDecision
    rw [if_neg h8]
    dsimp only
    rw [if_pos hlt]
  · intro hge
    unfold syncDecision
    rw [if_neg h8]
    dsimp only
    rw [if_neg (not_lt.mpr hge)]
    split_ifs <;> rfl

/-- C3 witness: on the concrete ready zero-drift tracker the decision issues
nothing and keeps the buffer. -/
theorem syncDecision_clears_only_on_correction_witness :
    syncDecision 1 0 107 C3readyPts none = ⟨C3readyPts, none, []⟩ :=
  (syncDecision_clears_only_on_correction 1 0 107 C3readyPts none (by decide)).1
    (by norm_num [listFmean, C3readyPts, MIN_DEVIATION_ADJUST])

/-- C4 counterexample: the run sync(2 → 0); sync(0 → 1) passes every
precondition the source checks (the target is never a child, the child is
never synced to a different master), yet afterwards player 0 has
`group_childs = {0, 2}` and `synced_to = 1` — simultaneously a master and a
child of a different master, violating the claimed membership invariant. -/
theorem membership_invariant_cx :
    (execOps C4ops emptyMAState).isSome = true ∧
    ¬ membershipInvariant C4final := by
  constructor
  · decide
  · intro hinv
    apply hinv.1 0
    constructor
    · exact ⟨0, by decide⟩
    · decide

/-- C4 (amended): after any sequence of sync/unsync calls that satisfy the
source's precondition checks *and* in which the child argument of every sync
call is not itself a master (empty `group_childs`) and differs from the
target, every player is in exactly one of UNSYNCED/MASTER/CHILD (never both a
master and a child) and every child appears in its master's `group_childs`. -/
theorem execValidOps_membership_invariant (ops : List SyncOp) (s s1 : MAState)
    (h0 : InvS s) (hrun : execValidOps ops s = some s1) :
    membershipInvariant s1 :=
  invS_membership s1 (invS_execValid ops s s1 h0 hrun)

/-- C4 witness: running the valid call sync(1 → 0) from the empty registry
yields a state satisfying the membership invariant. -/
theorem execValidOps_membership_invariant_witness :
    membershipInvariant C4validFinal :=
  execValidOps_membership_invariant [SyncOp.sync 1 0] emptyMAState C4validFinal
    invS_empty rfl

/-- C5 counterexample: on the ready tracker `C5pts` the average drift is
`405/8 = 50.625` ms; the source issues `skip_ahead` whose wire amount is
`int(50.625) = 50` (truncation), while the claim demands `round(50.625) = 51`
— the issued amount differs from the claimed one. -/
theorem correction_amount_truncates_cx :
    (syncDecision 1 0 108 C5pts none).commands = [SyncCommand.skipAhead 1 (405/8)] ∧
    runSyncCommand (SyncCommand.skipAhead 1 (405/8)) = ⟨1, StrmCode.a, 50⟩ ∧
    pyRound (405/8) = 51 ∧ (50 : ℤ) ≠ 51 := by
  refine ⟨?_, ?_, ?_, ?_⟩
  · norm_num [syncDecision, C5pts, MIN_REQ_PLAYPOINTS, listFmean,
      MIN_DEVIATION_ADJUST, MAX_SKIP_AHEAD_MS, abs]
  · norm_num [runSyncCommand, skip_over, pyInt, Int.floor_eq_iff]
  · norm_num [pyRound, Int.floor_eq_iff]
  · norm_num

/-- C5 (amended): on a ready tracker with average drift `d`,
`6 ≤ |d| ≤ 1500`: for `d > 0` exactly one skip-ahead is issued to the child
and for `d < 0` exactly one pause-for is issued to the child, in both cases
with wire amount `int(|d|) = ⌊|d|⌋` (truncation, not `round`); the
do-not-resync deadline is 2 s ahead for skip-ahead and `|d|/1000 + 2` s ahead
for pause-for. -/
theorem syncDecision_in_range_correction (childId masterId : PlayerId)
    (now : ℚ) (pts : List SyncPlayPoint) (backoff : Option ℚ)
    (h8 : ¬ pts.length < MIN_REQ_PLAYPOINTS)
    (hlo : MIN_DEVIATION_ADJUST ≤ |listFmean (pts.map (fun x => (x.diff : ℚ)))|)
    (hhi : |listFmean (pts.map (fun x => (x.diff : ℚ)))| ≤ MAX_SKIP_AHEAD_MS) :
    (0 < listFmean (pts.map (fun x => (x.diff : ℚ))) →
       syncDecision childId masterId now pts backoff =
         ⟨[], some (now + 2),
          [SyncCommand.skipAhead childId |listFmean (pts.map (fun x => (x.diff : ℚ)))|]⟩ ∧
       runSyncCommand
           (SyncCommand.skipAhead childId |listFmean (pts.map (fun x => (x.diff : ℚ)))|) =
         ⟨childId, StrmCode.a, ⌊|listFmean (pts.map (fun x => (x.diff : ℚ)))|⌋⟩) ∧
    (listFmean (pts.map (fun x => (x.diff : ℚ))) < 0 →
       syncDecision childId masterId now pts backoff =
         ⟨[], some (now + |listFmean (pts.map (fun x => (x.diff : ℚ)))| / 1000 + 2),
          [SyncCommand.pauseFor childId |listFmean (pts.map (fun x => (x.diff : ℚ)))|]⟩ ∧
       runSyncCommand
           (SyncCommand.pauseFor childId |listFmean (pts.map (fun x => (x.diff : ℚ)))|) =
         ⟨childId, StrmCode.p, ⌊|listFmean (pts.map (fun x => (x.diff : ℚ)))|⌋⟩) := by
  constructor
  · intro hpos
    constructor
    · unfold syncDecision
      rw [if_neg h8]
      dsimp only
      rw [if_neg (not_lt.mpr hlo)]
      rw [if_neg (by
        push_neg
        exact le_trans (le_abs_self _) hhi)]
      rw [if_pos hpos]
    · show skip_over childId _ = _
      unfold skip_over pyInt
      rw [if_pos (abs_nonneg _)]
  · intro hneg
    constructor
    · unfold syncDecision
      rw [if_neg h8]
      dsimp only
      rw [if_neg (not_lt.mpr hlo)]
      rw [if_neg (by
        push_neg
        calc listFmean (pts.map (fun x => (x.diff : ℚ))) ≤ 0 := le_of_lt hneg
          _ ≤ MAX_SKIP_AHEAD_MS := by norm_num [MAX_SKIP_AHEAD_MS])]
      rw [if_neg (not_lt.mpr (le_of_lt hneg))]
    · show pause_for childId _ = _
      unfold pause_for pyInt
      rw [if_pos (abs_nonneg _)]

/-- C5 witness: on the concrete ready tracker with positive in-range drift
the skip-ahead correction is issued as the amended claim states. -/
theorem syncDecision_in_range_correction_witness :
    syncDecision 1 0 108 C5pts none =
      ⟨[], some (108 + 2),
       [SyncCommand.skipAhead 1 |listFmean (C5pts.map (fun x => (x.diff : ℚ)))|]⟩ :=
  ((syncDecision_in_range_correction 1 0 108 C5pts none (by decide)
      (by norm_num [listFmean, C5pts, MIN_DEVIATION_ADJUST, abs])
      (by norm_num [listFmean, C5pts, MAX_SKIP_AHEAD_MS, abs])).1
    (by norm_num [listFmean, C5pts])).1

/-- C6: on a ready tracker with average drift strictly greater than 1500 ms,
the corrective pause-for is addressed to the group master (not the child),
carries the drift magnitude (= the average, which is positive here), and the
child's do-not-resync deadline is set 2 s into the future. -/
theorem syncDecision_runaway_targets_master (childId masterId : PlayerId)
    (now : ℚ) (pts : List SyncPlayPoint) (backoff : Option ℚ)
    (h8 : ¬ pts.length < MIN_REQ_PLAYPOINTS)
    (havg : MAX_SKIP_AHEAD_MS < listFmean (pts.map (fun x => (x.diff : ℚ)))) :
    syncDecision childId masterId now pts backoff =
      ⟨[], some (now + 2),
       [SyncCommand.pauseFor masterId (listFmean (pts.map (fun x => (x.diff : ℚ))))]⟩ := by
  unfold syncDecision
  have hpos : 0 < listFmean (pts.map (fun x => (x.diff : ℚ))) :=
    lt_trans (by norm_num [MAX_SKIP_AHEAD_MS]) havg
  have habs : |listFmean (pts.map (fun x => (x.diff : ℚ)))| =
      listFmean (pts.map (fun x => (x.diff : ℚ))) := abs_of_pos hpos
  rw [if_neg h8]
  dsimp only
  rw [habs]
  rw [if_neg (by
    push_neg
    calc MIN_DEVIATION_ADJUST ≤ MAX_SKIP_AHEAD_MS := by
          norm_num [MIN_DEVIATION_ADJUST, MAX_SKIP_AHEAD_MS]
      _ ≤ _ := le_of_lt havg)]
  rw [if_pos havg]

/-- C6 witness: on the concrete ready tracker with 2000 ms average drift, the
pause-for goes to the master with the full magnitude and the deadline is 2 s
ahead. -/
theorem syncDecision_runaway_targets_master_witness :
    syncDecision 1 0 108 C6pts none =
      ⟨[], some (108 + 2),
       [SyncCommand.pauseFor 0 (listFmean (C6pts.map (fun x => (x.diff : ℚ))))]⟩ :=
  syncDecision_runaway_targets_master 1 0 108 C6pts none (by decide)
    (by norm_num [listFmean, C6pts, MAX_SKIP_AHEAD_MS])

/-- C7: a heartbeat of a synced child arriving while the child's
do-not-resync deadline is still in the future is a complete no-op for the
drift corrector: nothing is recorded, the tracker and the deadline are
unchanged, and no corrective command is issued. -/
theorem clientSync_debounce_noop (inp : SyncInput) (b : ℚ)
    (hb : inp.backoff = some b) (hpos : 0 < b) (hnow : inp.now < b) :
    handleClientSync inp = ⟨inp.playpoints, inp.backoff, []⟩ := by
  unfold handleClientSync
  rw [hb]
  have hcond : b ≠ 0 ∧ inp.now < b := ⟨ne_of_gt hpos, hnow⟩
  split
  · rfl
  · split
    · rfl
    · split
      · rfl
      · split
        · rfl
        · dsimp only
          rw [if_pos hcond]

/-- C7 witness: the concrete backed-off heartbeat `C7inp` is a no-op. -/
theorem clientSync_debounce_noop_witness :
    handleClientSync C7inp = ⟨C7inp.playpoints, C7inp.backoff, []⟩ :=
  clientSync_debounce_noop C7inp 50 rfl (by norm_num)
    (by norm_num [C7inp])

/-- C8: recording a sample more than 10 s after the last one, or under a
different stream job id, clears the entire prior history before the new
sample is appended (the buffer becomes exactly the new sample); consequently
along any heartbeat history the tracker is always a chain of pairwise
compatible samples and becomes ready only when it holds exactly 8 of them. -/
theorem recordPlaypoint_staleness_and_ready :
    (∀ (pts : List SyncPlayPoint) (lp : SyncPlayPoint) (now : ℚ)
        (jobId : Nat) (d : ℤ),
        pts.getLast? = some lp →
        (now - lp.timestamp > 10 ∨ lp.sync_job_id ≠ jobId) →
        recordPlaypoint pts now jobId d = [⟨now, jobId, d⟩]) ∧
    (∀ evs : List (ℚ × Nat × ℤ),
        List.Chain' ppCompat (runRecords evs) ∧
        (¬ (runRecords evs).length < MIN_REQ_PLAYPOINTS →
          (runRecords evs).length = MIN_REQ_PLAYPOINTS)) := by
  constructor
  · intro pts lp now jobId d hlast hcl
    unfold recordPlaypoint dequeAppend
    dsimp only
    rw [hlast]
    dsimp only
    rcases hcl with h1 | h2
    · by_cases hj : lp.sync_job_id ≠ jobId
      · rw [if_pos hj]
        rfl
      · rw [if_neg hj, if_pos h1]
        rfl
    · rw [if_pos h2]
      rfl
  · intro evs
    have aux : ∀ (l : List (ℚ × Nat × ℤ)) (pts : List SyncPlayPoint),
        List.Chain' ppCompat pts → pts.length ≤ MIN_REQ_PLAYPOINTS →
        List.Chain' ppCompat
            (l.foldl (fun a e => recordPlaypoint a e.1 e.2.1 e.2.2) pts) ∧
          (l.foldl (fun a e => recordPlaypoint a e.1 e.2.1 e.2.2) pts).length ≤
            MIN_REQ_PLAYPOINTS := by
      intro l
      induction l with
      | nil =>
        intro pts h1 h2
        exact ⟨h1, h2⟩
      | cons e rest ih =>
        intro pts h1 h2
        exact ih _ (recordPlaypoint_chain _ _ _ _ h1)
          (recordPlaypoint_length_le _ _ _ _)
    have h := aux evs [] (by simp) (by norm_num [MIN_REQ_PLAYPOINTS])
    exact ⟨h.1, fun hge => le_antisymm h.2 (not_lt.mp hge)⟩

/-- C8 witness: a sample arriving 20 s after the previous one wipes the
history and leaves only itself. -/
theorem recordPlaypoint_staleness_and_ready_witness :
    recordPlaypoint [⟨0, 1, 5⟩] 20 1 7 = [⟨20, 1, 7⟩] :=
  recordPlaypoint_staleness_and_ready.1 [⟨0, 1, 5⟩] ⟨0, 1, 5⟩ 20 1 7 rfl
    (Or.inl (by norm_num))

/-- C9: `cmd_sync(child, master)` raises exactly when the target is itself a
child (its `synced_to` is set) or the child is already synced to a different
master — the mutations come after both checks, so a raising call leaves the
registry untouched — and on success the master's `group_childs` contains both
the master's own id and the child's id and the child's `synced_to` points at
the master. -/
theorem cmd_sync_error_iff_and_effects (s : MAState) (c m : PlayerId) :
    ((cmd_sync s c m).isOk = false ↔
      ((s m).synced_to.isSome ∨ ((s c).synced_to.isSome ∧ (s c).synced_to ≠ some m))) ∧
    (∀ s1, cmd_sync s c m = Except.ok s1 →
      m ∈ (s1 m).group_childs ∧ c ∈ (s1 m).group_childs ∧
        (s1 c).synced_to = some m) := by
  constructor
  · unfold cmd_sync
    by_cases h1 : (s m).synced_to.isSome
    · simp [h1, Except.isOk, Except.toBool]
    · by_cases h2 : (s c).synced_to.isSome ∧ (s c).synced_to ≠ some m
      · simp [h1, h2, Except.isOk, Except.toBool]
      · simp [h1, h2, Except.isOk, Except.toBool]
  · intro s1 hok
    unfold cmd_sync at hok
    by_cases h1 : (s m).synced_to.isSome
    · simp [h1] at hok
    · by_cases h2 : (s c).synced_to.isSome ∧ (s c).synced_to ≠ some m
      · simp [h1, h2] at hok
      · simp [h1, h2] at hok
        by_cases hcm : c = m
        · subst hcm
          subst hok
          simp [setPlayer_same]
        · subst hok
          refine ⟨?_, ?_, ?_⟩
          · rw [setPlayer_other _ _ _ _ (Ne.symm hcm), setPlayer_same]
            exact Finset.mem_insert_of_mem (Finset.mem_insert_self _ _)
          · rw [setPlayer_other _ _ _ _ (Ne.symm hcm), setPlayer_same]
            exact Finset.mem_insert_self _ _
          · rw [setPlayer_same]

/-- C9 witness: syncing child 1 to master 0 in the empty registry gives
`group_childs 0 = {0, 1}` and `synced_to 1 = 0`. -/
theorem cmd_sync_error_iff_and_effects_witness :
    0 ∈ (C9res 0).group_childs ∧ 1 ∈ (C9res 0).group_childs ∧
      (C9res 1).synced_to = some 0 :=
  (cmd_sync_error_iff_and_effects emptyMAState 1 0).2 C9res rfl

/-- C10: `play_media` addressed to a synced child always raises before any
stream job is created or any player contacted: the outcome is exactly the
error with an empty effect list, and no branch of `play_media` touches any
player's `synced_to`/`group_childs` or playback state. -/
theorem play_media_rejects_synced_child (resyncPending : Bool)
    (player_id : PlayerId) (player : MAPlayer) (syncClients : List PlayerId)
    (playerConnected : Bool) (h : player.synced_to.isSome) :
    play_media resyncPending player_id player syncClients playerConnected =
      ⟨resyncPending,
       Except.error "A synced player cannot receive play commands directly"⟩ := by
  unfold play_media
  dsimp only
  rw [if_pos h]

/-- C10 witness: a concrete synced child (synced to 0) is rejected. -/
theorem play_media_rejects_synced_child_witness :
    play_media true 1 ⟨some 0, ∅⟩ [] true =
      ⟨true,
       Except.error "A synced player cannot receive play commands directly"⟩ :=
  play_media_rejects_synced_child true 1 ⟨some 0, ∅⟩ [] true rfl

end SlimSync
